import Mathlib

/-
Verification development for the beefmote remote-control server
(src/unnamed/part_000, src/unnamed/part_001 and the historical snapshot
src/server/src/beefmote.c).  C strings are embedded as NUL-free lists of
characters; each C function the claims touch is translated into an
executable Lean definition; side effects (socket writes, deadbeef API
calls) are reified as values of an Effect type.
-/

namespace Beefmote

/-- C isspace in the C locale: space, tab, newline, vertical tab,
form feed, carriage return. -/
def isspaceC (c : Char) : Bool :=
  c == ' ' || c == '\t' || c == '\n' || c == '\x0b' || c == '\x0c' || c == '\r'

/-- C isdigit: decimal digit characters, codes 48 to 57. -/
def isdigitC (c : Char) : Bool :=
  decide (48 ≤ c.toNat) && decide (c.toNat ≤ 57)

/-- Numeric value of a run of decimal digit characters, accumulated the way
strtol accumulates it. -/
def digitsVal (l : List Char) : Nat :=
  l.foldl (fun acc c => acc * 10 + (c.toNat - 48)) 0

/-- LONG_MAX on the build target (gcc on a 64-bit platform, LP64: long is
64 bits). -/
def LONG_MAX : Int := 9223372036854775807

/-- LONG_MIN on the build target. -/
def LONG_MIN : Int := -9223372036854775808

/-- The saturation strtol applies on overflow: values outside the long
range are clamped to LONG_MIN / LONG_MAX. -/
def clampLong (v : Int) : Int :=
  if v < LONG_MIN then LONG_MIN else if LONG_MAX < v then LONG_MAX else v

/-- Embedding of C strtol(s, NULL, 10): skip leading isspace characters, read
an optional sign, then the longest run of decimal digits; with no digits the
result is 0; out-of-range values saturate at LONG_MIN / LONG_MAX. -/
def strtol10 (s : List Char) : Int :=
  match s.dropWhile isspaceC with
  | [] => 0
  | c :: t =>
    if c = '-' then clampLong (-((digitsVal (t.takeWhile isdigitC) : Nat) : Int))
    else if c = '+' then clampLong ((digitsVal (t.takeWhile isdigitC) : Nat) : Int)
    else clampLong ((digitsVal ((c :: t).takeWhile isdigitC) : Nat) : Int)

/-- The long-to-int conversion the handlers perform with
int idx = strtol(...): two's-complement truncation of a 64-bit long to a
32-bit int, i.e. reduction modulo 2^32 into [-2^31, 2^31). -/
def intOfLong (v : Int) : Int :=
  (v + 2147483648) % 4294967296 - 2147483648

/-- Embedding of strncmp(a, b, n) == 0 on NUL-terminated strings: compare up
to n characters, stopping early when either string ends (list end plays the
role of the NUL terminator). -/
def strncmpEq : List Char → List Char → Nat → Bool
  | _, _, 0 => true
  | [], [], _ + 1 => true
  | [], _ :: _, _ + 1 => false
  | _ :: _, [], _ + 1 => false
  | a :: l1, b :: l2, n + 1 => a == b && strncmpEq l1 l2 n

/-- Embedding of the argument clean-up loop of beefmote_process_command
(src/unnamed/part_000 lines 632-641): starting at the second character, the
first carriage return or newline is overwritten with NUL, which terminates
the C string there.  The first character is never examined by the loop. -/
def beefmote_strip_arg : List Char → List Char
  | [] => []
  | c :: t => c :: t.takeWhile (fun d => !(d == '\r') && !(d == '\n'))

/-- Embedding of the token/argument split of beefmote_process_command
(src/unnamed/part_000 lines 616-641, identical in part_001).  The C loop
(while (*ptr++)) tests position k and then inspects positions k+1 and k+2,
so position 0 is never inspected; the loop breaks at the first whitespace
character at position m >= 1.  If the character after that whitespace exists
and is not whitespace, the argument starts there (with the CR/LF strip
applied); otherwise there is no argument.  The token is the prefix before
position m; with no whitespace at any position >= 1 the whole line is the
token. -/
def beefmote_parse : List Char → List Char × Option (List Char) := fun s =>
  match s with
  | [] => ([], none)
  | c0 :: t =>
    match t.dropWhile (fun d => !(isspaceC d)) with
    | [] => (c0 :: t, none)
    | _ :: after =>
      match after with
      | [] => (c0 :: t.takeWhile (fun d => !(isspaceC d)), none)
      | a0 :: _ =>
        if isspaceC a0 then (c0 :: t.takeWhile (fun d => !(isspaceC d)), none)
        else (c0 :: t.takeWhile (fun d => !(isspaceC d)), some (beefmote_strip_arg after))

/-- A registry entry: command name and help text
(struct beefmote_command; the handler pointer is represented by the entry
position, which the dispatcher reports). -/
structure BCommand where
  name : List Char
  help : List Char
  deriving DecidableEq

/-- The command registry built by beefmote_initialize_commands in
src/unnamed/part_000 lines 555-608, in enum order BEEFMOTE_HELP ..
BEEFMOTE_EXIT. -/
def beefmote_commands : List BCommand := [
  ⟨"h".data, "prints this message.".data⟩,
  ⟨"pl".data, ("usage: pl [idx]. If passed with no arguments, prints all playlists (" ++
    "the current playlist is marked with (*)). " ++
    "If passed with an index number, sets the current playlist to the " ++
    "playlist with index idx.").data⟩,
  ⟨"tl".data, "prints all the tracks in the current playlist.".data⟩,
  ⟨"tla".data, "like tl, but prepends each track by its memory address.".data⟩,
  ⟨"tc".data, "prints the current track.".data⟩,
  ⟨"pp".data, "plays current track.".data⟩,
  ⟨"ps".data, "usage: ps idx. Plays a track by its index in the search list.".data⟩,
  ⟨"pa".data, ("usage: pa memaddr. Plays a track by memory address; memaddr must be written in " ++
    "hex notation.").data⟩,
  ⟨"r".data, "plays random track.".data⟩,
  ⟨"p".data, ("Usage: p [idx]. If passed with no arguments, pauses/resumes playback. " ++
    "If passed with an index, plays the track at index idx in the current " ++
    "playlist.").data⟩,
  ⟨"sac".data, "stops playback after current track.".data⟩,
  ⟨"s".data, "stops playback.".data⟩,
  ⟨"pv".data, "plays previous track.".data⟩,
  ⟨"nt".data, "plays next track.".data⟩,
  ⟨"vu".data, ("usage: vu [step]. If no argument is passed, " ++
    "increases volume by a default step of 5. If a number is passed, increases volume " ++
    "by that amount.").data⟩,
  ⟨"vd".data, ("usage: vd [step]. If no argument is passed, " ++
    "decreases volume by a default step of 5. If a number is passed, decreases volume " ++
    "by that amount.").data⟩,
  ⟨"sf".data, "seeks forward.".data⟩,
  ⟨"sb".data, "seeks backward.".data⟩,
  ⟨"/".data, ("usage: / str. Searches a string in the current " ++
    "playlist and returns a list of matching tracks. The matched tracks can be played by using their index " ++
    "number with the ps command.").data⟩,
  ⟨"ntfy-plchanged".data, ("Notifies when the current playlist has changed (meaning you\x27ll probably " ++
    "want to get the tracklist again).").data⟩,
  ⟨"ntfy-nowplaying".data, ("usage: ntfy-nowplaying true/false. Sets whether to notify when a new track " ++
    "starts to play. Default: false.").data⟩,
  ⟨"aps".data, ("usage: aps idx. Adds a searched track to the " ++
    "playback queue.").data⟩,
  ⟨"exit".data, "terminates Deadbeef.".data⟩]

/-- The registered command names, in registry order. -/
def beefmote_command_names : List (List Char) := beefmote_commands.map BCommand.name

/-- The dispatch scan of beefmote_process_command (src/unnamed/part_000
lines 650-661): for each entry in order, skip on differing length
(comm_len != name_len), otherwise match when strncmp over name_len
characters is 0; the first match wins and its position is returned. -/
def beefmote_find_command : List (List Char) → List Char → Option Nat
  | [], _ => none
  | nm :: rest, tok =>
    if tok.length == nm.length && strncmpEq nm tok nm.length then some 0
    else (beefmote_find_command rest tok).map (· + 1)

/-- Result of processing one line: either the handler at a registry position
is invoked with the parsed argument, or the fixed invalid-command message is
written to the client. -/
inductive ProcResult where
  | handler (i : Nat) (arg : Option (List Char))
  | invalid (msg : List Char)
  deriving DecidableEq

/-- The literal response written on an unrecognized command
(src/unnamed/part_000 lines 663-668). -/
def beefmote_invalid_msg : List Char := "\nPlease type a valid command\n\n".data

/-- beefmote_process_command of src/unnamed/part_000 lines 610-669:
parse the line, scan the registry, invoke the matching handler with the
parsed argument, or write the invalid-command message. -/
def beefmote_process_command (line : List Char) : ProcResult :=
  match beefmote_find_command beefmote_command_names (beefmote_parse line).1 with
  | some i => ProcResult.handler i (beefmote_parse line).2
  | none => ProcResult.invalid beefmote_invalid_msg

/-- The command names registered by the historical snapshot
src/server/src/beefmote.c lines 447-518, in enum order. -/
def beefmote_command_names_old : List (List Char) := [
  "help".data, "show-tracks".data, "play".data, "random".data, "pause".data,
  "stop-aftercurr".data, "stop".data, "previous".data, "next".data,
  "volume-up".data, "volume-down".data, "seek-forward".data,
  "seek-backward".data, "exit".data]

/-- The dispatch scan of beefmote_process_command in the historical snapshot
src/server/src/beefmote.c lines 526-531: no length comparison, only
strncmp(name, command, name_len) over the first name_len characters of the
raw buffer. -/
def beefmote_find_command_old : List (List Char) → List Char → Option Nat
  | [], _ => none
  | nm :: rest, tok =>
    if strncmpEq nm tok nm.length then some 0
    else (beefmote_find_command_old rest tok).map (· + 1)

/-- beefmote_process_command of src/server/src/beefmote.c lines 520-539:
the raw line is matched without any parsing and the handler receives NULL. -/
def beefmote_process_command_old (line : List Char) : ProcResult :=
  match beefmote_find_command_old beefmote_command_names_old line with
  | some i => ProcResult.handler i none
  | none => ProcResult.invalid beefmote_invalid_msg

/-- The deadbeef events the modelled handlers send
(DB_EV_PLAY_NUM, DB_EV_PLAY_CURRENT, DB_EV_PLAY_RANDOM, DB_EV_PAUSE,
DB_EV_STOP, DB_EV_PREV, DB_EV_NEXT, DB_EV_CONFIGCHANGED, DB_EV_TERMINATE). -/
inductive DBEvent where
  | playNum | playCurrent | playRandom | pausePlayback | stopPlayback
  | prev | next | configchanged | terminate
  deriving DecidableEq

/-- Observable side effects of a command handler, in program order: socket
writes (client_print_string / client_print_newline and client_print_track,
whose text depends on track metadata and is kept abstract), and calls into
the deadbeef backend. -/
inductive Effect where
  | write (s : List Char)
  | writeTrack (t : Nat) (withAddr : Bool)
  | sendmessage (ev : DBEvent) (p1 : Int)
  | pltSetCurrIdx (i : Int)
  | confSetInt (key : List Char) (v : Int)
  | volumeAdjustDb (delta : Int)
  | pltSearchProcess (query : List Char)
  | playqueuePush (t : Nat)
  deriving DecidableEq

/-- Whether an effect writes bytes to the client socket. -/
def Effect.isClientWrite : Effect → Bool
  | .write _ => true
  | .writeTrack _ _ => true
  | _ => false

/-- The client-directed writes among a list of effects. -/
def clientWrites (l : List Effect) : List Effect := l.filter Effect.isClientWrite

/-- Model of deadbeef plt_get_item_for_idx on an abstract track list:
the track at the given index, or NULL (none) when the index is outside the
list.  Tracks are opaque identifiers. -/
def plt_get_item_for_idx (tracks : List Nat) (i : Int) : Option Nat :=
  if i < 0 then none else tracks[i.toNat]?

/-- client_print_playlist of src/unnamed/part_000 lines 323-344: the
TRACKLIST_BEGIN sentinel, then each track prefixed by its 1-based index,
then the TRACKLIST_END sentinel. -/
def client_print_playlist (tracks : List Nat) (printAddr : Bool) : List Effect :=
  Effect.write "TRACKLIST_BEGIN\n".data
  :: (tracks.enum.flatMap fun p =>
      [Effect.write ("(".data ++ (Nat.repr (p.1 + 1)).data ++ ") ".data),
       Effect.writeTrack p.2 printAddr])
  ++ [Effect.write "TRACKLIST_END\n".data]

/-- beefmote_command_playlists of src/unnamed/part_000 lines 733-774.
State read from the backend: pl_n = plt_get_count(), the playlist titles,
and the index of the current playlist (-1 when plt_get_curr() is NULL;
the source compares playlist handles, embedded as index equality).  The
source computes int idx = strtol(data, NULL, 10), a long-to-int
truncation embedded by intOfLong. -/
def beefmote_command_playlists (pl_n : Int) (plNames : Nat → List Char)
    (currIdx : Int) (data : Option (List Char)) : List Effect :=
  if pl_n ≤ 0 then [Effect.write "\nNo playlists\n\n".data]
  else
    match data with
    | some d =>
      if intOfLong (strtol10 d) < 1 ∨ pl_n < intOfLong (strtol10 d) then
        [Effect.write "\nPlaylist index out of bounds\n\n".data]
      else [Effect.pltSetCurrIdx (intOfLong (strtol10 d) - 1)]
    | none =>
      ((List.range pl_n.toNat).flatMap fun i =>
        [Effect.write ("\nPlaylist ".data ++ (Nat.repr (i + 1)).data ++ ": ".data ++ plNames i)]
        ++ (if (i : Int) = currIdx then [Effect.write " (*)".data] else [])
        ++ [Effect.write "\n".data])
      ++ [Effect.write "\n".data]

/-- beefmote_command_tracklist of src/unnamed/part_000 lines 776-786.
currPl is the track list of the current playlist, none when plt_get_curr()
returns NULL; in that case the handler does nothing. -/
def beefmote_command_tracklist (currPl : Option (List Nat)) : List Effect :=
  match currPl with
  | some tracks => client_print_playlist tracks false
  | none => []

/-- beefmote_command_trackcurr of src/unnamed/part_000 lines 800-812.
curr is the beefmote_currtrack global, none when NULL. -/
def beefmote_command_trackcurr (curr : Option Nat) : List Effect :=
  match curr with
  | some t => [Effect.write "\n".data, Effect.writeTrack t false, Effect.write "\n".data]
  | none => [Effect.write "\nNo current track\n\n".data]

/-- beefmote_command_play_search of src/unnamed/part_000 lines 822-856.
currSearch is the current playlist as a PL_SEARCH track list (none when
plt_get_curr() is NULL); mainIdxOf is pl_get_idx_of, the index of a track
in the MAIN playlist.  The source computes
int track_index = strtol(data, NULL, 10): intOfLong embeds the
long-to-int truncation. -/
def beefmote_command_play_search (currSearch : Option (List Nat))
    (mainIdxOf : Nat → Int) (data : Option (List Char)) : List Effect :=
  match data with
  | none =>
    [Effect.write "\n".data,
     Effect.write "usage: ps idx. Plays a track by its index in the search list.".data,
     Effect.write "\n".data]
  | some d =>
    if intOfLong (strtol10 d) = 0 then [Effect.write "\nInvalid search index\n\n".data]
    else
      match currSearch with
      | none => []
      | some tracks =>
        match plt_get_item_for_idx tracks (intOfLong (strtol10 d) - 1) with
        | some track =>
          [Effect.write "\nPlaying ".data, Effect.writeTrack track false,
           Effect.write "\n".data,
           Effect.sendmessage DBEvent.playNum (mainIdxOf track)]
        | none => [Effect.write "\nInvalid search index\n\n".data]

/-- The playback output state constant OUTPUT_STATE_PLAYING of the deadbeef
API, as reported by get_output()->state(). -/
def OUTPUT_STATE_PLAYING : Int := 1

/-- beefmote_command_play_resume of src/unnamed/part_000 lines 890-909:
with an argument, int idx = strtol(data, NULL, 10) (long-to-int truncation
embedded by intOfLong) and send DB_EV_PLAY_NUM with the decremented index,
without any bounds check and without writing to the client; with no
argument, pause when playing, else play the current track. -/
def beefmote_command_play_resume (outputState : Int) (data : Option (List Char)) :
    List Effect :=
  match data with
  | some d => [Effect.sendmessage DBEvent.playNum (intOfLong (strtol10 d) - 1)]
  | none =>
    if outputState = OUTPUT_STATE_PLAYING then [Effect.sendmessage DBEvent.pausePlayback 0]
    else [Effect.sendmessage DBEvent.playCurrent 0]

/-- beefmote_command_volume_up of src/unnamed/part_000 lines 946-959: the
step is int step = strtol(data, NULL, 10) when an argument is present
(long-to-int truncation embedded by intOfLong), else
BEEFMOTE_VOLUME_STEP = 5; then volume_set_db(volume_get_db() + step).  The
volume is a decibel value; the effect records the signed step applied on
top of the current volume (the addition happens in float, without further
integer wrap). -/
def beefmote_command_volume_up (data : Option (List Char)) : List Effect :=
  match data with
  | some d => [Effect.volumeAdjustDb (intOfLong (strtol10 d))]
  | none => [Effect.volumeAdjustDb 5]

/-- beefmote_command_volume_down of src/unnamed/part_000 lines 961-974:
like volume up, with volume_set_db(volume_get_db() - step), so the recorded
delta is the negated int step. -/
def beefmote_command_volume_down (data : Option (List Char)) : List Effect :=
  match data with
  | some d => [Effect.volumeAdjustDb (-(intOfLong (strtol10 d)))]
  | none => [Effect.volumeAdjustDb (-5)]

/-- beefmote_command_search of src/unnamed/part_000 lines 992-1035.
currPl, when the current playlist exists, carries the backend search
capability: plt_search_process followed by iterating PL_SEARCH items is
embedded as a function from the query to the resulting track list.  With no
current playlist the handler silently returns. -/
def beefmote_command_search (currPl : Option (List Char → List Nat))
    (data : Option (List Char)) : List Effect :=
  match data with
  | none =>
    [Effect.write "\n".data,
     Effect.write ("usage: / str. Searches a string in the current " ++
       "playlist and returns a list of matching tracks. The matched tracks can be played by using their index " ++
       "number with the ps command.").data,
     Effect.write "\n".data]
  | some arg =>
    match currPl with
    | none => []
    | some searchFn =>
      Effect.pltSearchProcess arg
      :: Effect.write "\n".data
      :: ((searchFn arg).enum.flatMap fun p =>
           [Effect.write ("(".data ++ (Nat.repr (p.1 + 1)).data ++ ")\t".data),
            Effect.writeTrack p.2 false])
      ++ (if searchFn arg = [] then [Effect.write "(nothing was found)\n\n".data]
          else [Effect.write "\n".data])

/-- beefmote_command_notify_playlistchanged of src/unnamed/part_000 lines
1037-1054: flip the beefmote_notify_playlistchanged flag and print a
confirmation naming the new value.  Returns the new flag value with the
effects. -/
def beefmote_command_notify_playlistchanged (flag : Bool) : Bool × List Effect :=
  (!flag,
   [Effect.write ("\nNotification set to ".data ++
     (if !flag then "true.\n\n".data else "false.\n\n".data))])

/-- beefmote_command_stop_after_current of src/unnamed/part_000 lines
919-928: read conf_get_int("playlist.stop_after_current", 0) (the value
parameter), store 1 - value back, and send DB_EV_CONFIGCHANGED.  Nothing is
written to the client.  Returns the new stored value with the effects. -/
def beefmote_command_stop_after_current (value : Int) : Int × List Effect :=
  (1 - value,
   [Effect.confSetInt "playlist.stop_after_current".data (1 - value),
    Effect.sendmessage DBEvent.configchanged 0])

/-!  Lifecycle transition system.

The server runs two threads: the background thread executing
beefmote_thread (src/unnamed/part_000 lines 346-449) and the host thread,
which calls plugin_stop (lines 217-233).  The labelled transition system
below embeds both.  Each thread transition is one iteration of the outer
(listener) or inner (connection) loop of beefmote_thread; the source takes
the stopthread mutex and tests the flag at the top of every iteration, so
every non-exiting thread transition carries the hypothesis that the flag is
still false, and when the flag is true the only available thread transition
is the corresponding return path.  plugin_stop is split into the stop
request (set the flag under the lock and close the listening socket when it
is not -1) and the join, which can only fire once the thread has returned,
as thread_join returns only then. -/

/-- Control location of the background thread: top of the listener loop,
top of the per-client connection loop, or returned. -/
inductive TPC where
  | outer | inner | done
  deriving DecidableEq

/-- The server state shared between the two threads: the stopthread flag,
the listening socket (-1 when absent or closed), the client socket
(-1 when no client), the thread control location, and whether thread_join
has completed. -/
structure SrvState where
  stopthread : Bool
  socket : Int
  client : Int
  tpc : TPC
  joined : Bool
  deriving DecidableEq

/-- Transition labels.  Thread labels correspond to one loop iteration of
beefmote_thread; stopRequest and join belong to plugin_stop on the host
thread. -/
inductive SrvAct where
  | threadExit
  | threadExitClient
  | spinNoSocket
  | acceptFail
  | acceptClient (c : Int)
  | selectTimeout
  | selectError
  | readFail
  | processLine (line : List Char)
  | stopRequest
  | join
  deriving DecidableEq

/-- Whether a label is an action of the background thread. -/
def SrvAct.isThread : SrvAct → Bool
  | .stopRequest => false
  | .join => false
  | _ => true

/-- Whether a label accepts a connection or writes to the client socket
(the welcome banner on accept, command responses on processLine). -/
def SrvAct.isAcceptOrWrite : SrvAct → Bool
  | .acceptClient _ => true
  | .processLine _ => true
  | _ => false

/-- The transition relation of the lifecycle model; see the section comment
for the correspondence with beefmote_thread and plugin_stop. -/
inductive SrvStep : SrvState → SrvAct → SrvState → Prop where
  | threadExit (s : SrvState) (h : s.tpc = TPC.outer) (hf : s.stopthread = true) :
      SrvStep s SrvAct.threadExit { s with tpc := TPC.done }
  | threadExitClient (s : SrvState) (h : s.tpc = TPC.inner) (hf : s.stopthread = true) :
      SrvStep s SrvAct.threadExitClient { s with tpc := TPC.done, client := -1 }
  | spinNoSocket (s : SrvState) (h : s.tpc = TPC.outer) (hf : s.stopthread = false)
      (hs : s.socket = -1) :
      SrvStep s SrvAct.spinNoSocket s
  | acceptFail (s : SrvState) (h : s.tpc = TPC.outer) (hf : s.stopthread = false)
      (hs : s.socket ≠ -1) :
      SrvStep s SrvAct.acceptFail s
  | acceptClient (s : SrvState) (c : Int) (h : s.tpc = TPC.outer)
      (hf : s.stopthread = false) (hs : s.socket ≠ -1) (hc : 0 < c) :
      SrvStep s (SrvAct.acceptClient c) { s with client := c, tpc := TPC.inner }
  | selectTimeout (s : SrvState) (h : s.tpc = TPC.inner) (hf : s.stopthread = false) :
      SrvStep s SrvAct.selectTimeout s
  | selectError (s : SrvState) (h : s.tpc = TPC.inner) (hf : s.stopthread = false) :
      SrvStep s SrvAct.selectError { s with client := -1, tpc := TPC.outer }
  | readFail (s : SrvState) (h : s.tpc = TPC.inner) (hf : s.stopthread = false) :
      SrvStep s SrvAct.readFail { s with client := -1, tpc := TPC.outer }
  | processLine (s : SrvState) (line : List Char) (h : s.tpc = TPC.inner)
      (hf : s.stopthread = false) :
      SrvStep s (SrvAct.processLine line) s
  | stopRequest (s : SrvState) :
      SrvStep s SrvAct.stopRequest { s with stopthread := true, socket := -1 }
  | join (s : SrvState) (h : s.tpc = TPC.done) (hf : s.stopthread = true) :
      SrvStep s SrvAct.join { s with joined := true }

/-- The close calls performed by plugin_stop (src/unnamed/part_000 lines
224-226): the listening socket is closed only when it is not -1, so a failed
socket setup never leads to close(-1). -/
def plugin_stop_closes (s : SrvState) : List Int :=
  if s.socket ≠ -1 then [s.socket] else []

/-- Reachability along the transition relation. -/
def SrvReach : SrvState → SrvState → Prop :=
  Relation.ReflTransGen (fun x y => ∃ a, SrvStep x a y)

/-! Helper lemmas about the dispatcher scan. -/

theorem strncmpEq_self : ∀ (a : List Char) (n : Nat), strncmpEq a a n = true := by
  intro a
  induction a with
  | nil => intro n; cases n <;> rfl
  | cons c t ih =>
    intro n
    cases n with
    | zero => rfl
    | succ m => simp [strncmpEq, ih]

theorem strncmpEq_eq : ∀ (a b : List Char), a.length = b.length →
    strncmpEq a b a.length = true → a = b := by
  intro a
  induction a with
  | nil =>
    intro b h _
    cases b with
    | nil => rfl
    | cons d u => simp at h
  | cons c t ih =>
    intro b h hs
    cases b with
    | nil => simp at h
    | cons d u =>
      simp only [List.length_cons, Nat.succ.injEq] at h
      simp only [List.length_cons, strncmpEq, Bool.and_eq_true, beq_iff_eq] at hs
      rw [hs.1, ih u h hs.2]

theorem find_cond_iff (nm tok : List Char) :
    (tok.length == nm.length && strncmpEq nm tok nm.length) = true ↔ nm = tok := by
  constructor
  · intro h
    rw [Bool.and_eq_true, beq_iff_eq] at h
    exact strncmpEq_eq nm tok h.1.symm h.2
  · intro h
    subst h
    simp [strncmpEq_self]

theorem find_some : ∀ (names : List (List Char)) (tok : List Char) (i : Nat),
    beefmote_find_command names tok = some i →
    names[i]? = some tok ∧ ∀ j, j < i → ¬ names[j]? = some tok := by
  intro names
  induction names with
  | nil => intro tok i h; simp [beefmote_find_command] at h
  | cons nm rest ih =>
    intro tok i h
    by_cases hc : (tok.length == nm.length && strncmpEq nm tok nm.length) = true
    · rw [beefmote_find_command, if_pos hc] at h
      obtain rfl : (0 : Nat) = i := Option.some.inj h
      exact ⟨by rw [List.getElem?_cons_zero, (find_cond_iff nm tok).mp hc], by omega⟩
    · rw [beefmote_find_command, if_neg hc] at h
      cases hr : beefmote_find_command rest tok with
      | none => rw [hr] at h; simp at h
      | some i0 =>
        rw [hr] at h
        obtain rfl : i0 + 1 = i := Option.some.inj h
        obtain ⟨h1, h2⟩ := ih tok i0 hr
        refine ⟨by rw [List.getElem?_cons_succ]; exact h1, ?_⟩
        intro j hj
        cases j with
        | zero =>
          rw [List.getElem?_cons_zero]
          intro he
          exact hc ((find_cond_iff nm tok).mpr (Option.some.inj he))
        | succ k =>
          rw [List.getElem?_cons_succ]
          exact h2 k (by omega)

theorem find_mem : ∀ (names : List (List Char)) (tok : List Char),
    tok ∈ names → ∃ i, beefmote_find_command names tok = some i := by
  intro names
  induction names with
  | nil => intro tok h; cases h
  | cons nm rest ih =>
    intro tok h
    by_cases hc : (tok.length == nm.length && strncmpEq nm tok nm.length) = true
    · exact ⟨0, by rw [beefmote_find_command, if_pos hc]⟩
    · cases List.mem_cons.mp h with
      | inl he => exact absurd ((find_cond_iff nm tok).mpr he.symm) hc
      | inr hm =>
        obtain ⟨i, hi⟩ := ih tok hm
        exact ⟨i + 1, by rw [beefmote_find_command, if_neg hc, hi]; rfl⟩

theorem find_not_mem : ∀ (names : List (List Char)) (tok : List Char),
    tok ∉ names → beefmote_find_command names tok = none := by
  intro names
  induction names with
  | nil => intro tok _; rfl
  | cons nm rest ih =>
    intro tok h
    have hc : ¬ (tok.length == nm.length && strncmpEq nm tok nm.length) = true := by
      intro hc
      exact h (by rw [(find_cond_iff nm tok).mp hc]; exact List.mem_cons_self tok rest)
    rw [beefmote_find_command, if_neg hc, ih tok (fun hm => h (List.mem_cons_of_mem nm hm))]
    rfl

theorem lt_length_of_idx_some {α : Type _} {l : List α} {j : Nat} {a : α}
    (h : l[j]? = some a) : j < l.length := by
  by_contra hn
  rw [List.getElem?_eq_none (Nat.le_of_not_lt hn)] at h
  exact Option.noConfusion h

/-- C1 (corrected): counterexample against the claim as stated.  In the
historical snapshot src/server/src/beefmote.c the dispatcher compares only
the first name_len characters and never compares lengths, so the token
helpxyz, whose strict prefix help is the registered name of the help
command, does invoke that handler even though the lengths differ. -/
theorem old_dispatch_matches_prefix_token :
    beefmote_process_command_old "helpxyz".data = ProcResult.handler 0 none
    ∧ beefmote_command_names_old[0]? = some "help".data
    ∧ "helpxyz".data.length ≠ "help".data.length := by decide

/-- C1 (amended): in the current server (src/unnamed/part_000) the dispatch
scan compares the token length first and then the contents, so a match
reports exactly the registered name equal to the token; consequently a token
that properly extends a registered name never matches that name. -/
theorem dispatch_exact_match_only :
    (∀ (tok : List Char) (i : Nat),
      beefmote_find_command beefmote_command_names tok = some i →
      beefmote_command_names[i]? = some tok)
    ∧ (∀ (nm ext : List Char) (i : Nat), ext ≠ [] →
      beefmote_find_command beefmote_command_names (nm ++ ext) = some i →
      ¬ beefmote_command_names[i]? = some nm) := by
  constructor
  · intro tok i h
    exact (find_some _ tok i h).1
  · intro nm ext i hne h hcontra
    have h1 := (find_some _ _ i h).1
    rw [hcontra] at h1
    have h2 : nm = nm ++ ext := Option.some.inj h1
    have h3 : ext.length = 0 := by
      have := congrArg List.length h2
      simp only [List.length_append] at this
      omega
    exact hne (List.eq_nil_of_length_eq_zero h3)

/-- Witness for dispatch_exact_match_only at the concrete token h. -/
theorem dispatch_exact_match_only_witness :
    beefmote_command_names[0]? = some "h".data :=
  dispatch_exact_match_only.1 "h".data 0 (by decide)

/-- C3: the three documented parses.  pp with trailing CRLF gives token pp
and no argument; vu 10 with trailing CRLF gives token vu and argument 10;
ps followed by three spaces and CRLF gives token ps and no argument. -/
theorem parse_examples :
    beefmote_parse "pp\r\n".data = ("pp".data, none)
    ∧ beefmote_parse "vu 10\r\n".data = ("vu".data, some "10".data)
    ∧ beefmote_parse "ps   \r\n".data = ("ps".data, none) := by decide

/-- C4: a line whose parsed token is not a registered name is answered with
exactly the literal invalid-command message and no handler runs. -/
theorem process_unknown_token_invalid (line : List Char)
    (h : (beefmote_parse line).1 ∉ beefmote_command_names) :
    beefmote_process_command line = ProcResult.invalid beefmote_invalid_msg := by
  unfold beefmote_process_command
  rw [find_not_mem _ _ h]

/-- Witness for process_unknown_token_invalid at the line zzz. -/
theorem process_unknown_token_invalid_witness :
    beefmote_process_command "zzz\n".data = ProcResult.invalid beefmote_invalid_msg :=
  process_unknown_token_invalid "zzz\n".data (by decide)

/-- C10: registered names are pairwise distinct; the invalid-command message
is written exactly when no registry entry bears the parsed token, and an
invoked handler is the first and only entry whose name equals the token, so
one line never triggers two handlers nor a handler together with the
invalid-command message. -/
theorem process_single_dispatch :
    beefmote_command_names.Nodup
    ∧ (∀ line : List Char,
        beefmote_process_command line = ProcResult.invalid beefmote_invalid_msg ↔
        (beefmote_parse line).1 ∉ beefmote_command_names)
    ∧ (∀ (line : List Char) (i : Nat) (arg : Option (List Char)),
        beefmote_process_command line = ProcResult.handler i arg →
        beefmote_command_names[i]? = some (beefmote_parse line).1
        ∧ arg = (beefmote_parse line).2
        ∧ (∀ j, j < i → ¬ beefmote_command_names[j]? = some (beefmote_parse line).1)
        ∧ (∀ j : Nat, beefmote_command_names[j]? = some (beefmote_parse line).1 → j = i)) := by
  refine ⟨by decide, ?_, ?_⟩
  · intro line
    unfold beefmote_process_command
    cases hf : beefmote_find_command beefmote_command_names (beefmote_parse line).1 with
    | none =>
      constructor
      · intro _ hmem
        obtain ⟨i, hi⟩ := find_mem _ _ hmem
        rw [hf] at hi
        exact Option.noConfusion hi
      · intro _
        rfl
    | some i =>
      constructor
      · intro h
        exact absurd h (by simp)
      · intro hnm
        exact absurd (List.getElem?_mem (find_some _ _ i hf).1) hnm
  · intro line i arg h
    unfold beefmote_process_command at h
    cases hf : beefmote_find_command beefmote_command_names (beefmote_parse line).1 with
    | none =>
      rw [hf] at h
      exact absurd h (by simp)
    | some i0 =>
      rw [hf] at h
      simp only [ProcResult.handler.injEq] at h
      obtain ⟨rfl, rfl⟩ := h
      obtain ⟨h1, h2⟩ := find_some _ _ _ hf
      refine ⟨h1, rfl, h2, ?_⟩
      intro j hj
      have hnd : beefmote_command_names.Nodup := by decide
      have hjlt : j < beefmote_command_names.length := lt_length_of_idx_some hj
      exact List.getElem?_inj hjlt hnd (by rw [hj, h1])

/-- Witness for process_single_dispatch at the line pp, which is handled by
the registry entry at position 5. -/
theorem process_single_dispatch_witness :
    beefmote_command_names[5]? = some "pp".data :=
  (process_single_dispatch.2.2 "pp\n".data 5 none (by decide)).1

/-! Helper lemmas about takeWhile and dropWhile over a split list. -/

theorem takeWhile_append_all {α : Type _} (p : α → Bool) :
    ∀ (l1 : List α) (w : α) (l2 : List α), (∀ c ∈ l1, p c = true) → p w = false →
    (l1 ++ w :: l2).takeWhile p = l1 := by
  intro l1
  induction l1 with
  | nil =>
    intro w l2 _ hw
    rw [List.nil_append, List.takeWhile_cons_of_neg (by simp [hw])]
  | cons a l ih =>
    intro w l2 h hw
    rw [List.cons_append, List.takeWhile_cons_of_pos (h a (List.mem_cons_self a l)),
      ih w l2 (fun c hc => h c (List.mem_cons_of_mem a hc)) hw]

theorem dropWhile_append_all {α : Type _} (p : α → Bool) :
    ∀ (l1 : List α) (w : α) (l2 : List α), (∀ c ∈ l1, p c = true) → p w = false →
    (l1 ++ w :: l2).dropWhile p = w :: l2 := by
  intro l1
  induction l1 with
  | nil =>
    intro w l2 _ hw
    rw [List.nil_append, List.dropWhile_cons_of_neg (by simp [hw])]
  | cons a l ih =>
    intro w l2 h hw
    rw [List.cons_append, List.dropWhile_cons_of_pos (h a (List.mem_cons_self a l)),
      ih w l2 (fun c hc => h c (List.mem_cons_of_mem a hc)) hw]

theorem takeWhile_all {α : Type _} (p : α → Bool) :
    ∀ l : List α, (∀ c ∈ l, p c = true) → l.takeWhile p = l := by
  intro l
  induction l with
  | nil => intro _; rfl
  | cons a t ih =>
    intro h
    rw [List.takeWhile_cons_of_pos (h a (List.mem_cons_self a t)),
      ih (fun c hc => h c (List.mem_cons_of_mem a hc))]

/-- The parser applied to a line made of a whitespace-free token, one
whitespace character, and a remainder: the token is cut there and the
remainder decides the argument exactly as the C loop does. -/
theorem parse_split (c0 : Char) (tokTail : List Char) (w : Char) (rest : List Char)
    (h : ∀ c ∈ tokTail, isspaceC c = false) (hw : isspaceC w = true) :
    beefmote_parse ((c0 :: tokTail) ++ w :: rest) =
      match rest with
      | [] => (c0 :: tokTail, none)
      | a0 :: _ =>
        if isspaceC a0 then (c0 :: tokTail, none)
        else (c0 :: tokTail, some (beefmote_strip_arg rest)) := by
  have hp : ∀ c ∈ tokTail, (fun d => !(isspaceC d)) c = true := by
    intro c hc
    simp [h c hc]
  have hpw : (fun d => !(isspaceC d)) w = false := by simp [hw]
  rw [List.cons_append]
  show (match (tokTail ++ w :: rest).dropWhile (fun d => !(isspaceC d)) with
    | [] => (c0 :: (tokTail ++ w :: rest), none)
    | _ :: after =>
      match after with
      | [] => (c0 :: (tokTail ++ w :: rest).takeWhile (fun d => !(isspaceC d)), none)
      | a0 :: _ =>
        if isspaceC a0 then
          (c0 :: (tokTail ++ w :: rest).takeWhile (fun d => !(isspaceC d)), none)
        else
          (c0 :: (tokTail ++ w :: rest).takeWhile (fun d => !(isspaceC d)),
            some (beefmote_strip_arg after))) = _
  rw [dropWhile_append_all _ tokTail w rest hp hpw, takeWhile_append_all _ tokTail w rest hp hpw]

theorem noCRLF_pred_true {c : Char} (h : (c == '\r' || c == '\n') = false) :
    (!(c == '\r') && !(c == '\n')) = true := by
  cases hr : c == '\r' <;> cases hn : c == '\n' <;> simp_all

theorem CRLF_pred_false {c : Char} (h : (c == '\r' || c == '\n') = true) :
    (!(c == '\r') && !(c == '\n')) = false := by
  cases hr : c == '\r' <;> cases hn : c == '\n' <;> simp_all

/-- C2 (corrected): counterexample against the claim as stated.  The line
vu, two spaces, 10, newline consists of a token, a run of two whitespace
characters and a non-whitespace character, so the claim promises the
argument 10; the parser instead cuts the token at the first space and,
because the very next character is again whitespace, produces no argument
at all. -/
theorem parse_double_space_drops_argument :
    beefmote_parse "vu  10\n".data = ("vu".data, none)
    ∧ "vu  10\n".data = "vu".data ++ ' ' :: ' ' :: "10\n".data
    ∧ isspaceC ' ' = true ∧ isspaceC '1' = false := by decide

/-- C2 (amended): for a line of the form token, one whitespace character,
remainder: when the remainder starts with a non-whitespace character the
parse yields the token and the remainder with everything from the first
CR or LF onwards cut (for a proper line, the trailing CR/LF); when the
remainder is empty or starts with another whitespace character no argument
is produced, even if non-whitespace characters follow later.  The last
part identifies the strip with removing a trailing all-CR/LF suffix. -/
theorem parse_argument_detection (tok rest : List Char) (w : Char)
    (htok : tok ≠ []) (hnw : ∀ c ∈ tok, isspaceC c = false) (hw : isspaceC w = true) :
    (∀ a0 arest, rest = a0 :: arest → isspaceC a0 = false →
        beefmote_parse (tok ++ w :: rest) = (tok, some (beefmote_strip_arg rest)))
    ∧ (rest = [] → beefmote_parse (tok ++ w :: rest) = (tok, none))
    ∧ (∀ a0 arest, rest = a0 :: arest → isspaceC a0 = true →
        beefmote_parse (tok ++ w :: rest) = (tok, none))
    ∧ (∀ (a0 : Char) (mid eol : List Char),
        (∀ c ∈ mid, (c == '\r' || c == '\n') = false) →
        (∀ c ∈ eol, (c == '\r' || c == '\n') = true) →
        beefmote_strip_arg (a0 :: (mid ++ eol)) = a0 :: mid) := by
  cases tok with
  | nil => exact absurd rfl htok
  | cons c0 tokTail =>
    have htt : ∀ c ∈ tokTail, isspaceC c = false :=
      fun c hc => hnw c (List.mem_cons_of_mem c0 hc)
    refine ⟨?_, ?_, ?_, ?_⟩
    · intro a0 arest hrest ha0
      subst hrest
      rw [parse_split c0 tokTail w (a0 :: arest) htt hw]
      simp [ha0]
    · intro hrest
      subst hrest
      rw [parse_split c0 tokTail w [] htt hw]
    · intro a0 arest hrest ha0
      subst hrest
      rw [parse_split c0 tokTail w (a0 :: arest) htt hw]
      simp [ha0]
    · intro a0 mid eol hmid heol
      show a0 :: (mid ++ eol).takeWhile (fun d => !(d == '\r') && !(d == '\n')) = a0 :: mid
      cases eol with
      | nil =>
        rw [List.append_nil,
          takeWhile_all _ mid (fun c hc => noCRLF_pred_true (hmid c hc))]
      | cons e t =>
        rw [takeWhile_append_all _ mid e t (fun c hc => noCRLF_pred_true (hmid c hc))
          (CRLF_pred_false (heol e (List.mem_cons_self e t)))]

/-- Witness for parse_argument_detection on the line vu, space, 10, CRLF. -/
theorem parse_argument_detection_witness :
    beefmote_parse ("vu".data ++ ' ' :: "10\r\n".data) =
      ("vu".data, some (beefmote_strip_arg "10\r\n".data)) :=
  (parse_argument_detection "vu".data "10\r\n".data ' ' (by decide) (by decide)
    (by decide)).1 '1' "0\r\n".data (by decide) (by decide)

/-! Helper lemmas about strtol10 on pure digit strings. -/

theorem isdigit_not_space {c : Char} (h : isdigitC c = true) : isspaceC c = false := by
  by_contra hs
  rw [Bool.not_eq_false] at hs
  simp only [isspaceC, Bool.or_eq_true, beq_iff_eq] at hs
  rcases hs with ((((rfl | rfl) | rfl) | rfl) | rfl) | rfl <;> exact absurd h (by decide)

theorem isdigit_ne_dash {c : Char} (h : isdigitC c = true) : ¬ c = '-' := by
  intro e
  subst e
  exact absurd h (by decide)

theorem isdigit_ne_plus {c : Char} (h : isdigitC c = true) : ¬ c = '+' := by
  intro e
  subst e
  exact absurd h (by decide)

theorem strtol10_digits (d : List Char) (h1 : d ≠ []) (h2 : ∀ c ∈ d, isdigitC c = true)
    (h3 : (digitsVal d : Int) ≤ LONG_MAX) : strtol10 d = (digitsVal d : Int) := by
  cases d with
  | nil => exact absurd rfl h1
  | cons c t =>
    have hc := h2 c (List.mem_cons_self c t)
    unfold strtol10
    rw [List.dropWhile_cons_of_neg (by simp [isdigit_not_space hc])]
    show (if c = '-' then clampLong (-((digitsVal (t.takeWhile isdigitC) : Nat) : Int))
      else if c = '+' then clampLong ((digitsVal (t.takeWhile isdigitC) : Nat) : Int)
      else clampLong ((digitsVal ((c :: t).takeWhile isdigitC) : Nat) : Int))
      = (digitsVal (c :: t) : Int)
    rw [if_neg (isdigit_ne_dash hc), if_neg (isdigit_ne_plus hc),
      takeWhile_all isdigitC (c :: t) h2]
    unfold clampLong
    rw [if_neg (by simp only [LONG_MIN]; omega), if_neg (not_lt.mpr h3)]

theorem intOfLong_small (v : Int) (h0 : 0 ≤ v) (h1 : v ≤ 2147483647) :
    intOfLong v = v := by
  unfold intOfLong
  rw [Int.emod_eq_of_lt (by omega) (by omega)]
  omega

/-- C5 (corrected): counterexample against the claim as stated.  The
play-at-index command p with argument 0 performs a backend mutation (it
sends DB_EV_PLAY_NUM with index -1) and writes nothing to the client,
although the claim demands an out-of-bounds message and no mutation. -/
theorem play_resume_index_unchecked :
    beefmote_command_play_resume OUTPUT_STATE_PLAYING (some "0".data) =
      [Effect.sendmessage DBEvent.playNum (-1)]
    ∧ clientWrites (beefmote_command_play_resume OUTPUT_STATE_PLAYING (some "0".data)) = [] := by
  decide

/-- C5 (amended): the playlist-selection command pl and the
play-by-search-index command ps do bounds-check the 32-bit int value of the
argument (int idx = strtol, with the long-to-int wrap): when that value is
0 (or below 1) or above the reported count, only the out-of-bounds or
invalid-index message is written and no backend mutation happens; the
play-at-index command p, however, performs no bounds check at all and
always forwards the decremented parsed index to the backend, writing
nothing. -/
theorem index_commands_bounds :
    (∀ (pl_n : Int) (plNames : Nat → List Char) (currIdx : Int) (d : List Char),
      0 < pl_n → (intOfLong (strtol10 d) < 1 ∨ pl_n < intOfLong (strtol10 d)) →
      beefmote_command_playlists pl_n plNames currIdx (some d) =
        [Effect.write "\nPlaylist index out of bounds\n\n".data])
    ∧ (∀ (tracks : List Nat) (mainIdxOf : Nat → Int) (d : List Char),
      (intOfLong (strtol10 d) = 0 ∨ (tracks.length : Int) < intOfLong (strtol10 d)) →
      beefmote_command_play_search (some tracks) mainIdxOf (some d) =
        [Effect.write "\nInvalid search index\n\n".data])
    ∧ (∀ (outputState : Int) (d : List Char),
      beefmote_command_play_resume outputState (some d) =
        [Effect.sendmessage DBEvent.playNum (intOfLong (strtol10 d) - 1)]) := by
  refine ⟨?_, ?_, ?_⟩
  · intro pl_n plNames currIdx d hn hb
    unfold beefmote_command_playlists
    rw [if_neg (by omega : ¬ pl_n ≤ 0)]
    show (if intOfLong (strtol10 d) < 1 ∨ pl_n < intOfLong (strtol10 d) then
        [Effect.write "\nPlaylist index out of bounds\n\n".data]
      else [Effect.pltSetCurrIdx (intOfLong (strtol10 d) - 1)]) = _
    rw [if_pos hb]
  · intro tracks mainIdxOf d hb
    unfold beefmote_command_play_search
    rcases hb with h0 | hgt
    · show (if intOfLong (strtol10 d) = 0 then
          [Effect.write "\nInvalid search index\n\n".data]
        else _) = _
      rw [if_pos h0]
    · have h0 : ¬ intOfLong (strtol10 d) = 0 := by omega
      show (if intOfLong (strtol10 d) = 0 then
          [Effect.write "\nInvalid search index\n\n".data]
        else match plt_get_item_for_idx tracks (intOfLong (strtol10 d) - 1) with
          | some track =>
            [Effect.write "\nPlaying ".data, Effect.writeTrack track false,
             Effect.write "\n".data,
             Effect.sendmessage DBEvent.playNum (mainIdxOf track)]
          | none => [Effect.write "\nInvalid search index\n\n".data]) = _
      rw [if_neg h0]
      have hnone : plt_get_item_for_idx tracks (intOfLong (strtol10 d) - 1) = none := by
        unfold plt_get_item_for_idx
        by_cases hneg : intOfLong (strtol10 d) - 1 < 0
        · rw [if_pos hneg]
        · rw [if_neg hneg]
          exact List.getElem?_eq_none (by omega)
      rw [hnone]
  · intro outputState d
    rfl

/-- Witness for index_commands_bounds: three playlists, argument 4. -/
theorem index_commands_bounds_witness :
    beefmote_command_playlists 3 (fun _ => []) 0 (some "4".data) =
      [Effect.write "\nPlaylist index out of bounds\n\n".data] :=
  index_commands_bounds.1 3 (fun _ => []) 0 "4".data (by decide)
    (Or.inr (by decide))

/-- C7 (corrected): counterexample against the claim as stated.  With no
current playlist, the tracklist command tl, the search command / and the
play-by-search-index command ps write nothing at all to the client instead
of the promised error or notice text. -/
theorem tracklist_silent_without_playlist :
    beefmote_command_tracklist none = []
    ∧ beefmote_command_search none (some "x".data) = []
    ∧ beefmote_command_play_search none (fun _ => 0) (some "2".data) = [] := by decide

/-- C7 (amended): when no current track exists, tc does report the literal
text No current track; but when no current playlist exists, tl, / (with an
argument) and ps (with an argument whose parsed 32-bit int index is
nonzero) silently produce no output at all. -/
theorem backend_absence_reporting :
    beefmote_command_trackcurr none = [Effect.write "\nNo current track\n\n".data]
    ∧ beefmote_command_tracklist none = []
    ∧ (∀ d : List Char, beefmote_command_search none (some d) = [])
    ∧ (∀ (mainIdxOf : Nat → Int) (d : List Char), ¬ intOfLong (strtol10 d) = 0 →
        beefmote_command_play_search none mainIdxOf (some d) = []) := by
  refine ⟨rfl, rfl, fun d => rfl, ?_⟩
  intro mainIdxOf d h0
  show (if intOfLong (strtol10 d) = 0 then [Effect.write "\nInvalid search index\n\n".data]
    else ([] : List Effect)) = []
  rw [if_neg h0]

/-- Witness for backend_absence_reporting with the ps argument 1. -/
theorem backend_absence_reporting_witness :
    beefmote_command_play_search none (fun _ => 0) (some "1".data) = [] :=
  backend_absence_reporting.2.2.2 (fun _ => 0) "1".data (by decide)

/-- C8 (corrected): counterexample against the claim as stated.  The volume
command vu with the non-numeric argument abc writes no error message at
all: strtol yields 0 and the handler silently applies a step of 0. -/
theorem volume_up_nonnumeric_silent :
    beefmote_command_volume_up (some "abc".data) = [Effect.volumeAdjustDb 0]
    ∧ clientWrites (beefmote_command_volume_up (some "abc".data)) = [] := by decide

/-- C8 (amended): with no argument vu and vd apply exactly the default step
of 5 dB (up, respectively down); with any argument the step applied is the
32-bit int value of strtol of the argument (clamped to the long range, then
truncated long-to-int), so a decimal-digit argument whose value fits in an
int applies exactly its numeric value, arguments beyond int range wrap, and
a non-numeric argument parses as 0 and is applied silently, with no error
message. -/
theorem volume_step_behavior :
    beefmote_command_volume_up none = [Effect.volumeAdjustDb 5]
    ∧ beefmote_command_volume_down none = [Effect.volumeAdjustDb (-5)]
    ∧ (∀ d : List Char,
        beefmote_command_volume_up (some d) =
          [Effect.volumeAdjustDb (intOfLong (strtol10 d))]
        ∧ beefmote_command_volume_down (some d) =
          [Effect.volumeAdjustDb (-(intOfLong (strtol10 d)))])
    ∧ (∀ d : List Char, d ≠ [] → (∀ c ∈ d, isdigitC c = true) →
        (digitsVal d : Int) ≤ 2147483647 →
        beefmote_command_volume_up (some d) = [Effect.volumeAdjustDb (digitsVal d : Int)]
        ∧ beefmote_command_volume_down (some d) =
          [Effect.volumeAdjustDb (-((digitsVal d : Nat) : Int))]) := by
  refine ⟨rfl, rfl, fun d => ⟨rfl, rfl⟩, ?_⟩
  intro d h1 h2 h3
  have hs : strtol10 d = (digitsVal d : Int) :=
    strtol10_digits d h1 h2 (le_trans h3 (by decide))
  have hi : intOfLong (strtol10 d) = (digitsVal d : Int) := by
    rw [hs]
    exact intOfLong_small _ (Int.natCast_nonneg _) h3
  constructor
  · show [Effect.volumeAdjustDb (intOfLong (strtol10 d))] = _
    rw [hi]
  · show [Effect.volumeAdjustDb (-(intOfLong (strtol10 d)))] = _
    rw [hi]

/-- Witness for volume_step_behavior at the digit argument 10. -/
theorem volume_step_behavior_witness :
    beefmote_command_volume_up (some "10".data) =
      [Effect.volumeAdjustDb (digitsVal "10".data : Int)] :=
  (volume_step_behavior.2.2.2 "10".data (by decide) (by decide) (by decide)).1

/-- C9 (corrected): counterexample against the claim as stated.  Executing
the stop-after-current toggle sac writes nothing to the client: its effects
are only the configuration store update and the CONFIGCHANGED event, so no
confirmation text reflecting the new value is produced. -/
theorem stop_after_current_no_confirmation :
    clientWrites (beefmote_command_stop_after_current 0).2 = []
    ∧ (beefmote_command_stop_after_current 0).2 =
      [Effect.confSetInt "playlist.stop_after_current".data 1,
       Effect.sendmessage DBEvent.configchanged 0] := by decide

/-- C9 (amended): toggling either boolean preference twice restores its
original value; the playlist-changed notification toggle writes a
confirmation naming the new value after each execution, while the
stop-after-current toggle writes nothing to the client. -/
theorem toggle_roundtrip :
    (∀ b : Bool,
      (beefmote_command_notify_playlistchanged
        (beefmote_command_notify_playlistchanged b).1).1 = b)
    ∧ (∀ b : Bool, (beefmote_command_notify_playlistchanged b).2 =
        [Effect.write ("\nNotification set to ".data ++
          (if !b then "true.\n\n".data else "false.\n\n".data))])
    ∧ (∀ v : Int,
      (beefmote_command_stop_after_current
        (beefmote_command_stop_after_current v).1).1 = v)
    ∧ (∀ v : Int, clientWrites (beefmote_command_stop_after_current v).2 = []) := by
  refine ⟨?_, fun b => rfl, ?_, fun v => rfl⟩
  · intro b
    simp [beefmote_command_notify_playlistchanged]
  · intro v
    show 1 - (1 - v) = v
    omega

/-! Helper lemmas about the lifecycle transition system. -/

theorem srv_step_mono {s : SrvState} {a : SrvAct} {s' : SrvState}
    (h : SrvStep s a s') (ht : s.stopthread = true) : s'.stopthread = true := by
  cases h <;> simp_all

theorem srv_reach_mono {s s' : SrvState} (h : SrvReach s s') :
    s.stopthread = true → s'.stopthread = true := by
  induction h with
  | refl => exact id
  | tail _ hstep ih =>
    intro hs
    obtain ⟨a, hst⟩ := hstep
    exact srv_step_mono hst (ih hs)

/-- C6: the shutdown flag changes only through the stop request and only
from false to true; it stays true along every run; once true, the very next
thread iteration is the return path (closing the client socket when the
thread was serving one); a returned thread takes no further step, in
particular no accept and no client write; the stop request is always
enabled and leaves the listening socket closed; and a stop with the
listening socket already -1 performs no close call at all. -/
theorem shutdown_protocol :
    (∀ (s : SrvState) (a : SrvAct) (s' : SrvState), SrvStep s a s' →
      ¬ s'.stopthread = s.stopthread →
      a = SrvAct.stopRequest ∧ s.stopthread = false ∧ s'.stopthread = true)
    ∧ (∀ s s' : SrvState, SrvReach s s' → s.stopthread = true → s'.stopthread = true)
    ∧ (∀ (s : SrvState) (a : SrvAct) (s' : SrvState), SrvStep s a s' →
      s.stopthread = true → a.isThread = true →
      s'.tpc = TPC.done ∧ (s.tpc = TPC.inner → s'.client = -1))
    ∧ (∀ (s : SrvState) (a : SrvAct) (s' : SrvState), SrvStep s a s' →
      s.tpc = TPC.done → s'.tpc = TPC.done ∧ a.isAcceptOrWrite = false)
    ∧ (∀ s : SrvState,
      SrvStep s SrvAct.stopRequest { s with stopthread := true, socket := -1 })
    ∧ (∀ s : SrvState, s.socket = -1 → plugin_stop_closes s = []) := by
  refine ⟨?_, ?_, ?_, ?_, ?_, ?_⟩
  · intro s a s' hst hne
    cases hst <;> cases hb : s.stopthread <;> simp_all
  · intro s s' hr
    exact srv_reach_mono hr
  · intro s a s' hst ht hth
    cases hst <;> simp_all [SrvAct.isThread]
  · intro s a s' hst hd
    cases hst <;> simp_all [SrvAct.isAcceptOrWrite]
  · intro s
    exact SrvStep.stopRequest s
  · intro s h
    unfold plugin_stop_closes
    rw [if_neg (fun hne => hne h)]

/-- Witness for shutdown_protocol: with the flag already set, one thread
step from the top of the listener loop reaches the returned location. -/
theorem shutdown_protocol_witness :
    ({ stopthread := true, socket := 3, client := -1, tpc := TPC.done,
       joined := false } : SrvState).tpc = TPC.done :=
  (shutdown_protocol.2.2.1
    { stopthread := true, socket := 3, client := -1, tpc := TPC.outer, joined := false }
    SrvAct.threadExit
    { stopthread := true, socket := 3, client := -1, tpc := TPC.done, joined := false }
    (SrvStep.threadExit
      { stopthread := true, socket := 3, client := -1, tpc := TPC.outer, joined := false }
      rfl rfl)
    rfl rfl).1

end Beefmote
